import Mathlib

/-!
# Verification of the WhatsApp calorie-bot message core (`src/app.py`)

A shallow embedding of the message interpretation and food-resolution
pipeline of `app.py`.  Python floats are modelled as rationals (`ℚ`);
the SQLite database is modelled as an explicit record of tables; the
external HTTP services (Nutritionix, Google Vision, media download) are
modelled as oracle functions passed in as parameters; an uncaught Python
exception is modelled as `none` in an `Option` result.

The wall clock enters through two string parameters, mirroring the two
distinct clock reads of the code: `now` is `datetime.utcnow().isoformat()`
(stored in log timestamps) and `today` is `date.today().isoformat()`
(the *server-local* calendar date used by the `date(timestamp)=?` filters).
-/

/-! ## Python `float()` string parsing, restricted to finite literals

Model of CPython's `float(str)` on the token shapes reachable here
(tokens are whitespace-free and lower-cased by the caller).  The grammar
covered is `[+-] (digits | digits.digits? | .digits) (e [+-] digits)?`;
the special values `inf`/`nan` and digit underscores are outside the
model (no claim depends on them, and they have no rational value). -/

def digitsVal (cs : List Char) : ℕ :=
  cs.foldl (fun a c => a * 10 + (c.toNat - 48)) 0

def parseMantissa (cs : List Char) : Option ℚ :=
  match cs.splitOn '.' with
  | [ip] =>
      if ip ≠ [] ∧ ip.all Char.isDigit then some (digitsVal ip) else none
  | [ip, fp] =>
      if (ip ≠ [] ∨ fp ≠ []) ∧ ip.all Char.isDigit ∧ fp.all Char.isDigit then
        some ((digitsVal ip : ℚ) + (digitsVal fp : ℚ) / (10 : ℚ) ^ fp.length)
      else none
  | _ => none

def parseExp (cs : List Char) : Option ℤ :=
  match cs with
  | '+' :: ds => if ds ≠ [] ∧ ds.all Char.isDigit then some (digitsVal ds : ℤ) else none
  | '-' :: ds => if ds ≠ [] ∧ ds.all Char.isDigit then some (-(digitsVal ds : ℤ)) else none
  | ds => if ds ≠ [] ∧ ds.all Char.isDigit then some (digitsVal ds : ℤ) else none

def applyExp (q : ℚ) (e : ℤ) : ℚ :=
  if 0 ≤ e then q * (10 : ℚ) ^ e.toNat else q / (10 : ℚ) ^ (-e).toNat

def pyFloatUnsigned (cs : List Char) : Option ℚ :=
  match cs.splitOn 'e' with
  | [m] => parseMantissa m
  | [m, ex] =>
      match parseMantissa m, parseExp ex with
      | some q, some e => some (applyExp q e)
      | _, _ => none
  | _ => none

def pyFloat (s : String) : Option ℚ :=
  match s.toList with
  | [] => none
  | c :: rest =>
      if c = '-' then (pyFloatUnsigned rest).map Neg.neg
      else if c = '+' then pyFloatUnsigned rest
      else pyFloatUnsigned (c :: rest)

/-! ## Quantity parsing (`app.py` lines 234–244)

```
try:
    qty = float(parts[-1])
except:
    token = parts[-1]
    num = ''.join(ch for ch in token if (ch.isdigit() or ch=='.'))
    if not num:
        return (a usage-hint reply)
    qty = float(num)          # NOT guarded: can raise out of handle_incoming
```
`pyError` models the second `float` call raising an uncaught exception. -/

inductive QtyResult where
  | ok (q : ℚ)
  | parseFail
  | pyError
deriving DecidableEq, Repr

def salvageChars (token : String) : List Char :=
  token.toList.filter (fun c => c.isDigit || c == '.')

def parseQty (token : String) : QtyResult :=
  match pyFloat token with
  | some q => .ok q
  | none =>
      let num := salvageChars token
      if num.isEmpty then .parseFail
      else
        match pyFloat (String.mk num) with
        | some q => .ok q
        | none => .pyError

/-! ## Command tokenization (`app.py` line 227)

`(body or "").strip().lower().split()` — Python's argumentless `split`
splits on whitespace runs and drops empty pieces, which makes the
preceding `strip()` redundant; lower-casing commutes with splitting. -/

def splitWsAux : List Char → List Char → List (List Char)
  | [], acc => if acc.isEmpty then [] else [acc.reverse]
  | c :: cs, acc =>
      if c.isWhitespace then
        if acc.isEmpty then splitWsAux cs [] else acc.reverse :: splitWsAux cs []
      else splitWsAux cs (c :: acc)

def tokenize (body : String) : List String :=
  (splitWsAux (body.toList.map Char.toLower) []).map String.mk

/-! ## Data model (`app.py` lines 25–66, tables `users`, `food_items`, `logs`)

SQLite `INTEGER PRIMARY KEY` row ids are modelled by per-table `next…Id`
counters (SQLite assigns max-rowid+1 for these insert patterns).  Rows
live in lists in insertion order. -/

structure User where
  id : ℕ
  waNumber : String
  dailyTarget : ℤ
deriving DecidableEq, Repr

structure FoodItem where
  id : ℕ
  name : String
  unit : String
  kcalPerUnit : ℚ
deriving DecidableEq, Repr

structure LogEntry where
  id : ℕ
  userId : ℕ
  foodItemId : ℕ
  quantity : ℚ
  kcal : ℚ
  timestamp : String
deriving DecidableEq, Repr

structure DB where
  users : List User
  foodItems : List FoodItem
  logs : List LogEntry
  nextUserId : ℕ
  nextFoodId : ℕ
  nextLogId : ℕ
deriving DecidableEq, Repr

def emptyDB : DB := ⟨[], [], [], 1, 1, 1⟩

/-- Insert a seed food, swallowing the `sqlite3.IntegrityError` raised by the
`UNIQUE` constraint on `food_items.name` (`app.py` lines 59–64). -/
def insertFoodIfNew (db : DB) (name unit : String) (kpu : ℚ) : DB :=
  if (db.foodItems.find? (fun f => f.name == name)).isSome then db
  else { db with
    foodItems := db.foodItems ++ [⟨db.nextFoodId, name, unit, kpu⟩],
    nextFoodId := db.nextFoodId + 1 }

/-- `init_db` (`app.py` lines 25–66): `CREATE TABLE IF NOT EXISTS` for the
three tables (a no-op on the explicit-record model, where the tables always
exist) followed by the seed inserts. -/
def init_db (db : DB) : DB :=
  let d1 := insertFoodIfNew db "apple" "piece" 95
  let d2 := insertFoodIfNew d1 "banana" "piece" 105
  let d3 := insertFoodIfNew d2 "brown rice" "100g" 111
  let d4 := insertFoodIfNew d3 "egg" "piece" 78
  insertFoodIfNew d4 "oats" "100g" 389

/-- `get_or_create_user` (`app.py` lines 68–81): returns `(db', id, target)`. -/
def get_or_create_user (db : DB) (wa : String) : DB × ℕ × ℤ :=
  match db.users.find? (fun u => u.waNumber == wa) with
  | some u => (db, u.id, u.dailyTarget)
  | none =>
      ({ db with
         users := db.users ++ [⟨db.nextUserId, wa, 2000⟩],
         nextUserId := db.nextUserId + 1 },
       db.nextUserId, 2000)

def startsWithChars : List Char → List Char → Bool
  | [], _ => true
  | _ :: _, [] => false
  | a :: as, b :: bs => a == b && startsWithChars as bs

def hasSubChars : List Char → List Char → Bool
  | sub, [] => sub.isEmpty
  | sub, c :: cs => startsWithChars sub (c :: cs) || hasSubChars sub cs

/-- `sub` occurs somewhere inside `s` (SQL `LIKE '%sub%'`, Python `in`; the
model ignores `LIKE` metacharacters `%`/`_` inside the operand, which no
claim exercises). -/
def strContains (s sub : String) : Bool :=
  hasSubChars sub.toList s.toList

/-- Python `str.lower()` / SQL `LOWER()`, character-wise. -/
def strLower (s : String) : String :=
  String.mk (s.toList.map Char.toLower)

/-- `find_food_local` (`app.py` lines 83–89):
`SELECT id, name, unit, kcal_per_unit FROM food_items WHERE LOWER(name) LIKE
'%‹name.lower()›%'` — case-insensitive substring match, rows in rowid
(= insertion) order. -/
def find_food_local (db : DB) (name : String) : List FoodItem :=
  db.foodItems.filter (fun f => strContains (strLower f.name) (strLower name))

/-- `log_food_local` (`app.py` lines 91–98); `now` is
`datetime.utcnow().isoformat()` evaluated at the insert. -/
def log_food_local (db : DB) (userId foodId : ℕ) (quantity kcal : ℚ)
    (now : String) : DB :=
  { db with
    logs := db.logs ++ [⟨db.nextLogId, userId, foodId, quantity, kcal, now⟩],
    nextLogId := db.nextLogId + 1 }

/-- SQLite `date(timestamp)` on an ISO-8601 datetime string: the leading
`YYYY-MM-DD` part (first 10 characters). -/
def dateOf (ts : String) : String := String.mk (ts.toList.take 10)

/-- `today_total` (`app.py` lines 100–107): sum of `kcal` over the user's log
rows whose `date(timestamp)` equals `today`, where the code passes
`today = date.today().isoformat()` — the *server-local* calendar date. -/
def today_total (db : DB) (today : String) (userId : ℕ) : ℚ :=
  ((db.logs.filter (fun l => l.userId == userId && dateOf l.timestamp == today)).map
    (fun l => l.kcal)).sum

/-- Insertion step for `ORDER BY l.id DESC` (`get_today_logs`). -/
def insertByIdDesc (x : LogEntry) : List LogEntry → List LogEntry
  | [] => [x]
  | y :: ys => if y.id ≤ x.id then x :: y :: ys else y :: insertByIdDesc x ys

def sortByIdDesc (l : List LogEntry) : List LogEntry :=
  l.foldr insertByIdDesc []

/-- `get_today_logs` (`app.py` lines 109–121): today's rows for the user,
newest id first, inner-joined with `food_items` to obtain the food name;
yields the `(quantity, name, kcal)` data used by the `today` reply (the
selected `unit` and `timestamp` columns are unused by the caller). -/
def get_today_logs (db : DB) (today : String) (userId : ℕ) :
    List (ℚ × String × ℚ) :=
  (sortByIdDesc (db.logs.filter
      (fun l => l.userId == userId && dateOf l.timestamp == today))).filterMap
    (fun l => (db.foodItems.find? (fun f => f.id == l.foodItemId)).map
      (fun f => (l.quantity, f.name, l.kcal)))

/-! ## External services and configuration (`app.py` lines 14–19, 124–164)

The HTTP calls are modelled as oracle functions supplied as parameters:
`none` covers every failure mode the code collapses (exception, non-2xx
status, malformed payload, empty `foods` list / empty label list feeding a
falsy check).  Environment credentials are `Option String`, with Python
truthiness (`None` and `""` are falsy). -/

structure Config where
  nutritionixAppId : Option String
  nutritionixAppKey : Option String
  useGoogleVision : Bool
deriving DecidableEq, Repr

def truthy : Option String → Bool
  | none => false
  | some s => !s.isEmpty

/-- `NUTRITIONIX_APP_ID and NUTRITIONIX_APP_KEY` as a Python condition. -/
def credsTruthy (cfg : Config) : Bool :=
  truthy cfg.nutritionixAppId && truthy cfg.nutritionixAppKey

/-- Successful Nutritionix response after the code's aggregation
(`app.py` lines 158–161): summed `nf_calories` and joined `food_name`s. -/
structure NxResult where
  kcal : ℚ
  parsedName : String
deriving DecidableEq, Repr

/-- `nutritionix_query` (`app.py` lines 139–164).  Returns the result and
whether a network request was issued.  With unconfigured credentials it
returns `None` *before* any network activity (lines 145–146); otherwise the
oracle stands for the POST, with `none` covering all collapsed failures. -/
def nutritionix_query (cfg : Config) (nxOracle : String → Option NxResult)
    (query : String) : Option NxResult × Bool :=
  if credsTruthy cfg then (nxOracle query, true) else (none, false)

/-- One user-facing reply per terminal `return` of `handle_incoming`, carrying
the values interpolated into the f-string at that return site. -/
inductive Reply where
  | noDownload
  | unidentifiedImage
  | photoDetected (parsed : String) (kcal : ℚ) (query : String)
  | photoLocal (fname : String) (estKcal : ℚ) (unit : String)
  | photoUnknown (label : String)
  | helpEmpty
  | usageAdd
  | cantParseQty
  | logged (qty : ℚ) (name : String) (kcal : ℚ) (total : ℚ) (target : ℤ)
  | noLocalData (name : String)
  | todayReport (total : ℚ) (target : ℤ) (lines : List (ℚ × String × ℚ))
  | targetSet (kcal : ℕ)
  | usageSetTarget
  | helpFallthrough
deriving DecidableEq, Repr

structure Outcome where
  reply : Reply
  db : DB
  nxCalled : Bool
deriving DecidableEq, Repr

/-- Lines 264–275: `INSERT INTO food_items …`; on `sqlite3.IntegrityError`
(the `UNIQUE` constraint on `name` — the only constraint on the table)
re-read the existing row's id.  Returns `(db', fid)`. -/
def createOrGetFood (db : DB) (name unit : String) (kpu : ℚ) : DB × ℕ :=
  match db.foodItems.find? (fun f => f.name == name) with
  | some f => (db, f.id)
  | none =>
      ({ db with
         foodItems := db.foodItems ++ [⟨db.nextFoodId, name, unit, kpu⟩],
         nextFoodId := db.nextFoodId + 1 },
       db.nextFoodId)

/-- `parts[-1]` under the guard `len(parts) >= 3`. -/
def lastTok (parts : List String) : String :=
  (parts.getLast?).getD ""

/-- Python `" ".join`. -/
def joinSpace : List String → String
  | [] => ""
  | [x] => x
  | x :: xs => x ++ " " ++ joinSpace xs

/-- `" ".join(parts[1:-1])`. -/
def foodNameOf (parts : List String) : String :=
  joinSpace ((parts.drop 1).dropLast)

/-- The f-string `f"{qty} {food_name}"` sent to Nutritionix.  (Python renders
the float `qty`; the rendering never influences control flow since the
oracle is universally quantified in every theorem.) -/
def nxQueryStr (qty : ℚ) (foodName : String) : String :=
  toString qty ++ " " ++ foodName

/-- Line 279 / 292 / 298: `get_or_create_user(wa_from)[1]`, re-reading the
daily target (the user row already exists at these call sites, so the
discarded connection commits nothing). -/
def getTarget (db : DB) (wa : String) : ℤ :=
  (get_or_create_user db wa).2.2

/-- The `add`/`log` command body (`app.py` lines 231–292), entered with
`parts.head? ∈ {add, log}`.  `none` models an uncaught Python exception. -/
def handleAdd (cfg : Config) (nxOracle : String → Option NxResult) (db : DB)
    (now today wa : String) (uid : ℕ) (parts : List String) : Option Outcome :=
  if parts.length < 3 then some ⟨.usageAdd, db, false⟩
  else
    match parseQty (lastTok parts) with
    | .pyError => none
    | .parseFail => some ⟨.cantParseQty, db, false⟩
    | .ok qty =>
        let food_name := foodNameOf parts
        -- lines 247–253: the outer credential check gating the lookup
        let nx := if credsTruthy cfg then nxOracle (nxQueryStr qty food_name)
                  else none
        let nxCalled := credsTruthy cfg
        match nx with
        | some r =>
            -- lines 255–279: service success
            let kcal := r.kcal
            let cf : DB × ℕ :=
              match find_food_local db food_name with
              | m :: _ => (db, m.id)
              | [] => createOrGetFood db food_name "serving"
                        (if qty ≠ 0 then kcal / qty else kcal)
            let db3 := log_food_local cf.1 uid cf.2 qty kcal now
            some ⟨.logged qty food_name kcal (today_total db3 today uid)
                    (getTarget db3 wa), db3, nxCalled⟩
        | none =>
            -- lines 281–292: local-catalog fallback
            match find_food_local db food_name with
            | [] => some ⟨.noLocalData food_name, db, nxCalled⟩
            | m :: _ =>
                let kcal := if strContains m.unit "100g" then
                              m.kcalPerUnit * qty / 100
                            else m.kcalPerUnit * qty
                let db2 := log_food_local db uid m.id qty kcal now
                some ⟨.logged qty m.name kcal (today_total db2 today uid)
                        (getTarget db2 wa), db2, nxCalled⟩

/-- The image branch (`app.py` lines 172–224).  `dlOracle` is the
`requests.get` media download (`none` = any exception), `visOracle` the
Vision label call (`none` = exception; `some []` = empty label list, which
is falsy at line 185). -/
def handleImage (cfg : Config) (nxOracle : String → Option NxResult)
    (dlOracle : String → Option String)
    (visOracle : String → Option (List (String × ℚ))) (db : DB)
    (mediaUrls : List String) : Option Outcome :=
  let imgUrl := (mediaUrls.head?).getD ""
  match dlOracle imgUrl with
  | none => some ⟨.noDownload, db, false⟩
  | some imgBytes =>
      let label : Option String :=
        if cfg.useGoogleVision then
          match visOracle imgBytes with
          | none => none
          | some [] => none
          | some ((d, _) :: _) => some d
        else none
      match label with
      | none => some ⟨.unidentifiedImage, db, false⟩
      | some lab =>
          let query := "1 serving " ++ lab
          let nxc := nutritionix_query cfg nxOracle query
          let called := nxc.2
          match nxc.1 with
          | some r =>
              let parsed := if !r.parsedName.isEmpty then r.parsedName else lab
              some ⟨.photoDetected parsed r.kcal query, db, called⟩
          | none =>
              match find_food_local db lab with
              | f :: _ =>
                  -- lines 215–218: both arms of the `"100g" in unit` test
                  -- assign the same estimate
                  let est := if strContains f.unit "100g" then f.kcalPerUnit
                             else f.kcalPerUnit
                  some ⟨.photoLocal f.name est f.unit, db, called⟩
              | [] => some ⟨.photoUnknown lab, db, called⟩

/-- `handle_incoming` (`app.py` lines 167–312).  `now` is
`datetime.utcnow().isoformat()`, `today` is `date.today().isoformat()`
(server-local); `none` models an uncaught Python exception. -/
def handle_incoming (cfg : Config) (nxOracle : String → Option NxResult)
    (dlOracle : String → Option String)
    (visOracle : String → Option (List (String × ℚ)))
    (db : DB) (now today wa body : String) (numMedia : ℕ)
    (mediaUrls : List String) : Option Outcome :=
  let gu := get_or_create_user db wa
  let db1 := gu.1
  let uid := gu.2.1
  if numMedia > 0 ∧ mediaUrls ≠ [] then
    handleImage cfg nxOracle dlOracle visOracle db1 mediaUrls
  else
    let parts := tokenize body
    match parts.head? with
    | none => some ⟨.helpEmpty, db1, false⟩
    | some cmd =>
        if cmd = "add" ∨ cmd = "log" then
          handleAdd cfg nxOracle db1 now today wa uid parts
        else if cmd = "today" ∨ cmd = "total" then
          some ⟨.todayReport (today_total db1 today uid) (getTarget db1 wa)
                  (get_today_logs db1 today uid), db1, false⟩
        else if cmd = "settarget" ∨ cmd = "target" then
          match parts.drop 1 with
          | arg :: _ =>
              if !arg.isEmpty ∧ arg.toList.all Char.isDigit then
                let t := digitsVal arg.toList
                some ⟨.targetSet t,
                      { db1 with users := db1.users.map (fun u =>
                          if u.waNumber == wa then { u with dailyTarget := (t : ℤ) }
                          else u) }, false⟩
              else some ⟨.usageSetTarget, db1, false⟩
          | [] => some ⟨.usageSetTarget, db1, false⟩
        else some ⟨.helpFallthrough, db1, false⟩


/-! ## Spec-side definition for refinement comparison (claim C9)

The spec's words: the reported daily total is "the sum of kcal over exactly
those of that user's log entries whose timestamp has calendar date equal to"
a given day.  Written independently of the code-side `today_total`. -/

def specTodayTotal (logs : List LogEntry) (userId : ℕ) (day : String) : ℚ :=
  match logs with
  | [] => 0
  | l :: ls =>
      (if l.userId = userId ∧ dateOf l.timestamp = day then l.kcal else 0) +
        specTodayTotal ls userId day

/-! ## Concrete fixtures used by counterexamples and witnesses -/

/-- Credentials unset (`os.environ.get` returned `None`), vision enabled. -/
def cfgOff : Config := ⟨none, none, true⟩

/-- Both Nutritionix credentials configured. -/
def cfgOn : Config := ⟨some "id", some "key", true⟩

def nxNone : String → Option NxResult := fun _ => none

def nxGrapes : String → Option NxResult := fun _ => some ⟨52, "grapes"⟩

def dlNone : String → Option String := fun _ => none

def visNone : String → Option (List (String × ℚ)) := fun _ => none

/-- The database right after `init_db` on empty storage. -/
def seededDB : DB := init_db emptyDB

/-- `seededDB` plus the user `"u"` (as created on first contact). -/
def seededUserDB : DB :=
  { seededDB with users := [⟨1, "u", 2000⟩], nextUserId := 2 }

/-- `seededUserDB` plus a catalog row for `"grapes"` — the state a concurrent
winner leaves behind for the loser of the create race (claim C6). -/
def grapesDB : DB :=
  { seededUserDB with
    foodItems := seededUserDB.foodItems ++ [⟨6, "grapes", "serving", 26⟩],
    nextFoodId := 7 }

/-- One 95 kcal entry stored at UTC instant `2026-10-12T23:30:00`.  On a
server in time zone UTC+05:30 that instant is `2026-10-13 05:00` local, so
`date.today()` returns `"2026-10-13"` while the current UTC date is
`"2026-10-12"` (claim C9). -/
def dbOneLog : DB :=
  { seededUserDB with
    logs := [⟨1, 1, 1, 1, 95, "2026-10-12T23:30:00"⟩],
    nextLogId := 2 }

/-! ## Helper lemmas -/

theorem startsWithChars_self (l : List Char) : startsWithChars l l = true := by
  induction l with
  | nil => rfl
  | cons c cs ih => simp [startsWithChars, ih]

theorem hasSubChars_self (l : List Char) : hasSubChars l l = true := by
  cases l with
  | nil => rfl
  | cons c cs => simp [hasSubChars, startsWithChars_self]

theorem strContains_self (s : String) : strContains s s = true :=
  hasSubChars_self s.toList

/-- An empty substring query means no catalog row matches even exactly. -/
theorem find_food_local_nil_exact (db : DB) (n : String)
    (h : find_food_local db n = []) :
    db.foodItems.find? (fun f => f.name == n) = none := by
  rw [List.find?_eq_none]
  intro f hf hbeq
  have hname : f.name = n := by simpa using hbeq
  have hall := (List.filter_eq_nil_iff).1 h f hf
  apply hall
  rw [hname]
  exact strContains_self (strLower n)

theorem gocu_logs (db : DB) (wa : String) :
    (get_or_create_user db wa).1.logs = db.logs := by
  unfold get_or_create_user
  cases db.users.find? (fun u => u.waNumber == wa) <;> rfl

theorem gocu_foodItems (db : DB) (wa : String) :
    (get_or_create_user db wa).1.foodItems = db.foodItems := by
  unfold get_or_create_user
  cases db.users.find? (fun u => u.waNumber == wa) <;> rfl

/-- The image branch returns a reply and leaves the database untouched. -/
theorem handleImage_shape (cfg : Config) (nxO : String → Option NxResult)
    (dlO : String → Option String)
    (visO : String → Option (List (String × ℚ))) (db : DB)
    (urls : List String) :
    ∃ r c, handleImage cfg nxO dlO visO db urls = some ⟨r, db, c⟩ := by
  unfold handleImage nutritionix_query
  dsimp only
  repeat' split
  all_goals exact ⟨_, _, rfl⟩

theorem parseMantissa_nonneg (cs : List Char) (q : ℚ)
    (h : parseMantissa cs = some q) : 0 ≤ q := by
  unfold parseMantissa at h
  split at h <;> [skip; skip; exact absurd h (by simp)] <;> split at h <;>
    simp_all <;> subst h <;> positivity

theorem applyExp_nonneg (q : ℚ) (e : ℤ) (hq : 0 ≤ q) : 0 ≤ applyExp q e := by
  unfold applyExp
  split <;> positivity

theorem pyFloatUnsigned_nonneg (cs : List Char) (q : ℚ)
    (h : pyFloatUnsigned cs = some q) : 0 ≤ q := by
  unfold pyFloatUnsigned at h
  split at h
  · exact parseMantissa_nonneg _ _ h
  · split at h
    · rename_i m ex q' e hm he
      obtain rfl : applyExp q' e = q := by simpa using h
      exact applyExp_nonneg _ _ (parseMantissa_nonneg _ _ hm)
    · exact absurd h (by simp)
  · exact absurd h (by simp)

/-- A string of digit/dot characters never parses to a negative float. -/
theorem pyFloat_digitdot_nonneg (s : String) (q : ℚ)
    (hchars : ∀ c ∈ s.toList, c.isDigit ∨ c = '.')
    (h : pyFloat s = some q) : 0 ≤ q := by
  unfold pyFloat at h
  split at h
  · exact absurd h (by simp)
  · rename_i c rest hs
    have hc : c.isDigit ∨ c = '.' := hchars c (by rw [hs]; exact List.mem_cons_self c rest)
    have hcm : ¬ c = '-' := by
      rintro rfl
      rcases hc with hd | hd <;> simp_all
    have hcp : ¬ c = '+' := by
      rintro rfl
      rcases hc with hd | hd <;> simp_all
    rw [if_neg hcm, if_neg hcp] at h
    exact pyFloatUnsigned_nonneg _ _ h

/-- A seed food name is present after its own insert. -/
theorem foodPresent_insert_self (db : DB) (n u : String) (k : ℚ) :
    ((insertFoodIfNew db n u k).foodItems.find? (fun f => f.name == n)).isSome := by
  unfold insertFoodIfNew
  split
  · assumption
  · rename_i h
    rw [List.find?_isSome]
    exact ⟨⟨db.nextFoodId, n, u, k⟩, by simp⟩

/-- Inserting one seed keeps every already-present name present. -/
theorem foodPresent_insert_mono (db : DB) (m n u : String) (k : ℚ)
    (h : (db.foodItems.find? (fun f => f.name == m)).isSome) :
    ((insertFoodIfNew db n u k).foodItems.find? (fun f => f.name == m)).isSome := by
  unfold insertFoodIfNew
  split
  · exact h
  · rw [List.find?_isSome] at h ⊢
    obtain ⟨f, hf, hp⟩ := h
    exact ⟨f, List.mem_append_left _ hf, hp⟩

/-- Inserting an already-present seed is a no-op. -/
theorem insertFoodIfNew_of_present (db : DB) (n u : String) (k : ℚ)
    (h : (db.foodItems.find? (fun f => f.name == n)).isSome) :
    insertFoodIfNew db n u k = db := by
  unfold insertFoodIfNew
  rw [if_pos h]

theorem insertFoodIfNew_users (db : DB) (n u : String) (k : ℚ) :
    (insertFoodIfNew db n u k).users = db.users := by
  unfold insertFoodIfNew
  split <;> rfl

theorem insertFoodIfNew_logs (db : DB) (n u : String) (k : ℚ) :
    (insertFoodIfNew db n u k).logs = db.logs := by
  unfold insertFoodIfNew
  split <;> rfl

theorem insertFoodIfNew_extends (db : DB) (n u : String) (k : ℚ) :
    ∃ t, (insertFoodIfNew db n u k).foodItems = db.foodItems ++ t := by
  unfold insertFoodIfNew
  split
  · exact ⟨[], by simp⟩
  · exact ⟨_, rfl⟩

/-- The filter/map/sum of `today_total` agrees with the spec-side recursive
sum on any log list. -/
theorem sum_filter_eq_specTodayTotal (logs : List LogEntry) (uid : ℕ)
    (day : String) :
    ((logs.filter (fun l => l.userId == uid && dateOf l.timestamp == day)).map
      (fun l => l.kcal)).sum = specTodayTotal logs uid day := by
  induction logs with
  | nil => rfl
  | cons l ls ih =>
      rw [List.filter_cons]
      by_cases h : l.userId = uid ∧ dateOf l.timestamp = day
      · rw [if_pos (by simp [h.1, h.2]), List.map_cons, List.sum_cons, ih,
          specTodayTotal, if_pos h]
      · rw [if_neg (by simpa using h), ih, specTodayTotal, if_neg h, zero_add]

/-! ## Claim theorems -/

/-- C10: `init_db` is idempotent (it is re-run on every webhook request):
on any state, a second run changes nothing, and a single run leaves every
existing user, catalog entry and log entry unchanged — duplicate seed
insertions are swallowed by the name-uniqueness constraint, so new seed
rows are only ever appended after the existing catalog rows. -/
theorem init_db_idempotent (db : DB) :
    init_db (init_db db) = init_db db ∧
    (init_db db).users = db.users ∧
    (init_db db).logs = db.logs ∧
    ∃ t, (init_db db).foodItems = db.foodItems ++ t := by
  have hid : init_db db =
      insertFoodIfNew (insertFoodIfNew (insertFoodIfNew (insertFoodIfNew
        (insertFoodIfNew db "apple" "piece" 95) "banana" "piece" 105)
        "brown rice" "100g" 111) "egg" "piece" 78) "oats" "100g" 389 := rfl
  have happle : ((init_db db).foodItems.find? (fun f => f.name == "apple")).isSome := by
    rw [hid]
    exact foodPresent_insert_mono _ _ _ _ _ (foodPresent_insert_mono _ _ _ _ _
      (foodPresent_insert_mono _ _ _ _ _ (foodPresent_insert_mono _ _ _ _ _
        (foodPresent_insert_self db _ _ _))))
  have hbanana : ((init_db db).foodItems.find? (fun f => f.name == "banana")).isSome := by
    rw [hid]
    exact foodPresent_insert_mono _ _ _ _ _ (foodPresent_insert_mono _ _ _ _ _
      (foodPresent_insert_mono _ _ _ _ _ (foodPresent_insert_self _ _ _ _)))
  have hrice : ((init_db db).foodItems.find? (fun f => f.name == "brown rice")).isSome := by
    rw [hid]
    exact foodPresent_insert_mono _ _ _ _ _ (foodPresent_insert_mono _ _ _ _ _
      (foodPresent_insert_self _ _ _ _))
  have hegg : ((init_db db).foodItems.find? (fun f => f.name == "egg")).isSome := by
    rw [hid]
    exact foodPresent_insert_mono _ _ _ _ _ (foodPresent_insert_self _ _ _ _)
  have hoats : ((init_db db).foodItems.find? (fun f => f.name == "oats")).isSome := by
    rw [hid]
    exact foodPresent_insert_self _ _ _ _
  refine ⟨?_, ?_, ?_, ?_⟩
  · show insertFoodIfNew (insertFoodIfNew (insertFoodIfNew (insertFoodIfNew
      (insertFoodIfNew (init_db db) "apple" "piece" 95) "banana" "piece" 105)
      "brown rice" "100g" 111) "egg" "piece" 78) "oats" "100g" 389 = init_db db
    rw [insertFoodIfNew_of_present _ _ _ _ happle,
        insertFoodIfNew_of_present _ _ _ _ hbanana,
        insertFoodIfNew_of_present _ _ _ _ hrice,
        insertFoodIfNew_of_present _ _ _ _ hegg,
        insertFoodIfNew_of_present _ _ _ _ hoats]
  · rw [hid, insertFoodIfNew_users, insertFoodIfNew_users, insertFoodIfNew_users,
        insertFoodIfNew_users, insertFoodIfNew_users]
  · rw [hid, insertFoodIfNew_logs, insertFoodIfNew_logs, insertFoodIfNew_logs,
        insertFoodIfNew_logs, insertFoodIfNew_logs]
  · rw [hid]
    obtain ⟨t1, h1⟩ := insertFoodIfNew_extends db "apple" "piece" 95
    obtain ⟨t2, h2⟩ := insertFoodIfNew_extends _ "banana" "piece" 105
    obtain ⟨t3, h3⟩ := insertFoodIfNew_extends _ "brown rice" "100g" 111
    obtain ⟨t4, h4⟩ := insertFoodIfNew_extends _ "egg" "piece" 78
    obtain ⟨t5, h5⟩ := insertFoodIfNew_extends _ "oats" "100g" 389
    exact ⟨t1 ++ t2 ++ t3 ++ t4 ++ t5, by
      rw [h5, h4, h3, h2, h1]; simp [List.append_assoc]⟩

/-- C9 (amended): the reported daily total is the sum of kcal over exactly
those of the user's log entries whose stored (UTC) timestamp has calendar
date equal to the date *passed to the filter* — which in the code is
`date.today()`, the server-local current date, coinciding with the current
UTC date only when the server's time zone is UTC. -/
theorem today_total_is_date_filtered_sum (db : DB) (day : String) (uid : ℕ) :
    today_total db day uid = specTodayTotal db.logs uid day := by
  unfold today_total
  exact sum_filter_eq_specTodayTotal _ _ _

/-- C9 (counterexample): at UTC instant `2026-10-12T23:30:00` on a UTC+05:30
server, `date.today()` is `"2026-10-13"` while the current UTC date is
`"2026-10-12"`; for a user whose only entry was just stored at that UTC
instant, the code reports 0 kcal, while the claim's UTC-date filter sums
95 kcal. -/
theorem today_total_not_utc_date_cx :
    dateOf "2026-10-12T23:30:00" = "2026-10-12" ∧
    today_total dbOneLog "2026-10-13" 1 = 0 ∧
    specTodayTotal dbOneLog.logs 1 "2026-10-12" = 95 ∧
    today_total dbOneLog "2026-10-13" 1 ≠ specTodayTotal dbOneLog.logs 1 "2026-10-12" := by
  refine ⟨by decide, ?_, ?_, ?_⟩
  · simp [today_total, dbOneLog, seededUserDB, seededDB, dateOf]
  · simp [specTodayTotal, dbOneLog, seededUserDB, seededDB, dateOf]
  · simp [today_total, specTodayTotal, dbOneLog, seededUserDB, seededDB, dateOf]

/-- C2 (counterexample): the trailing-token quantity parser does not
implement `a/b` fractions — `float("1/2")` raises, and the salvage path
strips the slash, so `"1/2"` parses to `12.0` (not `0.5`) and `"3/0"`
parses to `30.0` (not a failure). -/
theorem parseQty_no_fractions_cx :
    parseQty "1/2" = .ok 12 ∧ parseQty "1/2" ≠ .ok (1 / 2 : ℚ) ∧
    parseQty "3/0" = .ok 30 := by
  have h1 : parseQty "1/2" = .ok 12 := by
    simp [parseQty, pyFloat, pyFloatUnsigned, parseMantissa, parseExp, applyExp,
      digitsVal, salvageChars, List.splitOn]
  have h3 : parseQty "3/0" = .ok 30 := by
    simp [parseQty, pyFloat, pyFloatUnsigned, parseMantissa, parseExp, applyExp,
      digitsVal, salvageChars, List.splitOn]
  refine ⟨h1, ?_, h3⟩
  rw [h1]
  intro h
  have : (12 : ℚ) = 1 / 2 := by injection h
  norm_num at this

/-- C2 (amended): the quantity parser accepts Python float literals; on a
literal that `float` rejects it strips every character except digits and
`'.'` and re-parses, failing only when nothing remains — so `"0"` yields
`0.0`, `"abc"` fails, `"1/2"` yields `12.0` and `"3/0"` yields `30.0`. -/
theorem parseQty_salvage_behavior :
    parseQty "0" = .ok 0 ∧ parseQty "abc" = .parseFail ∧
    parseQty "1/2" = .ok 12 ∧ parseQty "3/0" = .ok 30 := by
  refine ⟨?_, ?_, ?_, ?_⟩ <;>
    simp [parseQty, pyFloat, pyFloatUnsigned, parseMantissa, parseExp, applyExp,
      digitsVal, salvageChars, List.splitOn]

/-- C8 (counterexample): the quantity produced for an add/log command can be
negative — `float("-5")` succeeds with `-5.0`, and `add apple -5` then logs
an entry with kcal `95 * (-5) = -475 < 0`. -/
theorem parseQty_negative_cx :
    parseQty "-5" = .ok (-5) ∧ ((-5 : ℚ) < 0) ∧
    handle_incoming cfgOff nxNone dlNone visNone seededDB
      "2026-10-12T10:00:00" "2026-10-12" "u" "add apple -5" 0 []
      = some ⟨.logged (-5) "apple" (-475) (-475) 2000,
          { seededUserDB with
            logs := [⟨1, 1, 1, -5, -475, "2026-10-12T10:00:00"⟩],
            nextLogId := 2 }, false⟩ := by
  refine ⟨?_, by norm_num, ?_⟩
  · simp [parseQty, pyFloat, pyFloatUnsigned, parseMantissa, parseExp, applyExp,
      digitsVal, salvageChars, List.splitOn]
  · simp [handle_incoming, handleAdd, get_or_create_user, tokenize, splitWsAux,
      parseQty, pyFloat, pyFloatUnsigned, parseMantissa, parseExp, applyExp,
      digitsVal, salvageChars, List.splitOn, cfgOff, credsTruthy, truthy,
      nxNone, seededDB, seededUserDB, init_db, insertFoodIfNew, emptyDB,
      find_food_local, strContains, strLower, hasSubChars, startsWithChars,
      lastTok, foodNameOf, joinSpace, log_food_local, today_total, dateOf, getTarget]
    norm_num

/-- C8 (amended): only the digit/dot salvage path is guaranteed
non-negative: whenever `float` rejects the raw token and the stripped
remainder parses, the resulting quantity is `≥ 0`; a raw token that is a
signed float literal (e.g. `"-5"`) may still be negative. -/
theorem parseQty_salvage_nonneg (token : String) (q : ℚ)
    (hfail : pyFloat token = none) (hok : parseQty token = .ok q) : 0 ≤ q := by
  unfold parseQty at hok
  rw [hfail] at hok
  by_cases hnum : (salvageChars token).isEmpty
  · simp [hnum] at hok
  · rw [if_neg hnum] at hok
    rcases hpf : pyFloat (String.mk (salvageChars token)) with _ | q'
    · rw [hpf] at hok; exact absurd hok (by simp)
    · rw [hpf] at hok
      obtain rfl : q' = q := by injection hok
      refine pyFloat_digitdot_nonneg _ _ ?_ hpf
      intro c hc
      have hcm : c ∈ token.toList.filter (fun c => c.isDigit || c == '.') := hc
      have : (c.isDigit || c == '.') = true := (List.mem_filter.1 hcm).2
      rcases Bool.or_eq_true_iff.1 this with h | h
      · exact Or.inl h
      · exact Or.inr (by simpa using h)

/-- C8 (witness for the amended theorem): the token `"x5"` takes the salvage
path and yields the non-negative quantity `5`. -/
theorem parseQty_salvage_nonneg_witness :
    pyFloat "x5" = none ∧ parseQty "x5" = .ok 5 ∧ (0 : ℚ) ≤ 5 := by
  have hfail : pyFloat "x5" = none := by
    simp [pyFloat, pyFloatUnsigned, parseMantissa, parseExp, List.splitOn]
  have hok : parseQty "x5" = .ok 5 := by
    simp [parseQty, pyFloat, pyFloatUnsigned, parseMantissa, parseExp, applyExp,
      digitsVal, salvageChars, List.splitOn]
  exact ⟨hfail, hok, parseQty_salvage_nonneg "x5" 5 hfail hok⟩

/-- C3 (code bug): `handle_incoming` does not return a reply on every input —
for body `"add apple 1.2.3"` the quantity salvage keeps `"1.2.3"` and the
unguarded `float(num)` inside the `except` block raises a `ValueError` that
escapes `handle_incoming` (modelled as `none`). -/
theorem handle_incoming_crash_cx :
    handle_incoming cfgOff nxNone dlNone visNone seededDB
      "2026-10-12T10:00:00" "2026-10-12" "whatsapp:+1" "add apple 1.2.3" 0 []
      = none := by
  simp [handle_incoming, handleAdd, get_or_create_user, tokenize, splitWsAux,
    parseQty, pyFloat, pyFloatUnsigned, parseMantissa, parseExp, applyExp,
    digitsVal, salvageChars, List.splitOn, seededDB, init_db, insertFoodIfNew,
    emptyDB, lastTok]

/-- C4 (counterexample): a two-token `add apple` command is rejected with a
usage message — `len(parts) < 3` — and nothing is logged; no default
quantity of `1.0` is applied (the claim would have it log 95 kcal of
apple). -/
theorem add_two_token_cx :
    handle_incoming cfgOff nxNone dlNone visNone seededDB
      "2026-10-12T10:00:00" "2026-10-12" "u" "add apple" 0 []
      = some ⟨.usageAdd, seededUserDB, false⟩ ∧
    seededUserDB.logs = [] := by
  constructor
  · simp [handle_incoming, handleAdd, get_or_create_user, tokenize, splitWsAux,
      seededDB, seededUserDB, init_db, insertFoodIfNew, emptyDB]
  · simp [seededUserDB, seededDB, init_db, insertFoodIfNew, emptyDB]

/-- C4 (amended): for every add/log command of exactly two tokens, the
handler returns the usage reply, performs no resolution and writes no log
entry (the only state change is the get-or-create of the sender's user
row). -/
theorem add_two_token_usage (cfg : Config) (nxO : String → Option NxResult)
    (dlO : String → Option String)
    (visO : String → Option (List (String × ℚ))) (db : DB)
    (now today wa body : String) (mediaUrls : List String) (c f : String)
    (htok : tokenize body = [c, f]) (hc : c = "add" ∨ c = "log") :
    handle_incoming cfg nxO dlO visO db now today wa body 0 mediaUrls
      = some ⟨.usageAdd, (get_or_create_user db wa).1, false⟩ ∧
    ((get_or_create_user db wa).1).logs = db.logs := by
  refine ⟨?_, gocu_logs db wa⟩
  unfold handle_incoming
  dsimp only
  rw [if_neg (by simp), htok]
  rcases hc with rfl | rfl <;>
    (simp only [List.head?]
     rw [if_pos (by simp)]
     unfold handleAdd
     rw [if_pos (by simp)])

/-- C4 (witness): the amended theorem applied to the concrete command
`"add apple"` against the seeded database. -/
theorem add_two_token_usage_witness :
    tokenize "add apple" = ["add", "apple"] ∧
    (handle_incoming cfgOff nxNone dlNone visNone seededDB
        "2026-10-12T10:00:00" "2026-10-12" "u" "add apple" 0 []
      = some ⟨.usageAdd, (get_or_create_user seededDB "u").1, false⟩ ∧
     ((get_or_create_user seededDB "u").1).logs = seededDB.logs) :=
  ⟨by decide, add_two_token_usage cfgOff nxNone dlNone visNone seededDB
    "2026-10-12T10:00:00" "2026-10-12" "u" "add apple" [] "add" "apple"
    (by decide) (Or.inl rfl)⟩

/-- C1: in the add-command local-catalog fallback, for every parsed quantity
`q` and first-matched catalog entry `m`, the logged calories are
`m.kcalPerUnit * q / 100` when the entry's unit contains `"100g"` and
`m.kcalPerUnit * q` otherwise. -/
theorem add_local_fallback_formula (cfg : Config)
    (nxO : String → Option NxResult) (db : DB) (now today wa : String)
    (uid : ℕ) (parts : List String) (q : ℚ) (m : FoodItem) (ms : List FoodItem)
    (hlen : 3 ≤ parts.length)
    (hq : parseQty (lastTok parts) = .ok q)
    (hnx : (if credsTruthy cfg then nxO (nxQueryStr q (foodNameOf parts))
            else none) = none)
    (hm : find_food_local db (foodNameOf parts) = m :: ms) :
    ∃ reply db',
      handleAdd cfg nxO db now today wa uid parts
        = some ⟨reply, db', credsTruthy cfg⟩ ∧
      db'.logs = db.logs ++ [⟨db.nextLogId, uid, m.id, q,
        (if strContains m.unit "100g" then m.kcalPerUnit * q / 100
         else m.kcalPerUnit * q), now⟩] := by
  unfold handleAdd
  rw [if_neg (by omega), hq]
  dsimp only
  rw [hnx, hm]
  dsimp only
  exact ⟨_, _, rfl, by simp [log_food_local]⟩

/-- C1 (witness): the theorem applied to `add oats 2` against the seeded
catalog (`oats`, unit `100g`, 389 kcal per 100 g). -/
theorem add_local_fallback_formula_witness :
    3 ≤ (["add", "oats", "2"] : List String).length ∧
    parseQty (lastTok ["add", "oats", "2"]) = .ok 2 ∧
    (if credsTruthy cfgOff then
       nxNone (nxQueryStr 2 (foodNameOf ["add", "oats", "2"]))
     else none) = none ∧
    find_food_local seededUserDB (foodNameOf ["add", "oats", "2"])
      = [⟨5, "oats", "100g", 389⟩] ∧
    ∃ reply db',
      handleAdd cfgOff nxNone seededUserDB "2026-10-12T10:00:00" "2026-10-12"
        "u" 1 ["add", "oats", "2"] = some ⟨reply, db', credsTruthy cfgOff⟩ ∧
      db'.logs = seededUserDB.logs ++ [⟨seededUserDB.nextLogId, 1, 5, 2,
        (if strContains "100g" "100g" then (389 : ℚ) * 2 / 100 else 389 * 2),
        "2026-10-12T10:00:00"⟩] := by
  have h2 : 3 ≤ (["add", "oats", "2"] : List String).length := by decide
  have h3 : parseQty (lastTok ["add", "oats", "2"]) = .ok 2 := by
    simp [parseQty, pyFloat, pyFloatUnsigned, parseMantissa, parseExp,
      applyExp, digitsVal, salvageChars, List.splitOn, lastTok]
  have hnx : (if credsTruthy cfgOff then
      nxNone (nxQueryStr 2 (foodNameOf ["add", "oats", "2"]))
    else none) = none := by decide
  have h4 : find_food_local seededUserDB (foodNameOf ["add", "oats", "2"])
      = [⟨5, "oats", "100g", 389⟩] := by
    simp [find_food_local, seededUserDB, seededDB, init_db, insertFoodIfNew,
      emptyDB, foodNameOf, joinSpace, strContains, strLower, hasSubChars, startsWithChars]
  exact ⟨h2, h3, hnx, h4, add_local_fallback_formula cfgOff nxNone seededUserDB
    "2026-10-12T10:00:00" "2026-10-12" "u" 1 ["add", "oats", "2"] 2
    ⟨5, "oats", "100g", 389⟩ [] h2 h3 hnx h4⟩

/-- With unconfigured credentials, the add/log branch never consults the
Nutritionix oracle and reports `nxCalled = false`. -/
theorem handleAdd_unconfigured (cfg : Config)
    (nxO1 nxO2 : String → Option NxResult) (db : DB) (now today wa : String)
    (uid : ℕ) (parts : List String) (hcred : credsTruthy cfg = false) :
    handleAdd cfg nxO1 db now today wa uid parts
      = handleAdd cfg nxO2 db now today wa uid parts ∧
    ∀ out, handleAdd cfg nxO1 db now today wa uid parts = some out →
      out.nxCalled = false := by
  unfold handleAdd
  rw [hcred]
  simp only [Bool.false_eq_true, if_false]
  refine ⟨trivial, ?_⟩
  intro out h
  repeat' split at h
  all_goals first
    | (obtain rfl := Option.some.inj h; rfl)
    | exact absurd h (by simp)

/-- With unconfigured credentials, the image branch never consults the
Nutritionix oracle and reports `nxCalled = false`. -/
theorem handleImage_unconfigured (cfg : Config)
    (nxO1 nxO2 : String → Option NxResult) (dlO : String → Option String)
    (visO : String → Option (List (String × ℚ))) (db : DB)
    (urls : List String) (hcred : credsTruthy cfg = false) :
    handleImage cfg nxO1 dlO visO db urls
      = handleImage cfg nxO2 dlO visO db urls ∧
    ∀ out, handleImage cfg nxO1 dlO visO db urls = some out →
      out.nxCalled = false := by
  unfold handleImage nutritionix_query
  rw [hcred]
  simp only [Bool.false_eq_true, if_false]
  refine ⟨trivial, ?_⟩
  intro out h
  repeat' split at h
  all_goals obtain rfl := Option.some.inj h
  all_goals rfl

/-- C5: whenever the Nutritionix credentials are unconfigured, handling any
message issues no network request to the nutrition service — the result is
identical under any two nutrition oracles, and every reply reports
`nxCalled = false` — so add commands resolve (or fail) via the local
catalog alone. -/
theorem nx_unconfigured_local_only (cfg : Config)
    (nxO1 nxO2 : String → Option NxResult) (dlO : String → Option String)
    (visO : String → Option (List (String × ℚ))) (db : DB)
    (now today wa body : String) (numMedia : ℕ) (urls : List String)
    (hcred : credsTruthy cfg = false) :
    handle_incoming cfg nxO1 dlO visO db now today wa body numMedia urls
      = handle_incoming cfg nxO2 dlO visO db now today wa body numMedia urls ∧
    ∀ out,
      handle_incoming cfg nxO1 dlO visO db now today wa body numMedia urls
        = some out → out.nxCalled = false := by
  constructor
  · unfold handle_incoming
    dsimp only
    split
    · exact (handleImage_unconfigured cfg nxO1 nxO2 dlO visO _ urls hcred).1
    · split
      · rfl
      · split
        · exact (handleAdd_unconfigured cfg nxO1 nxO2 _ now today wa _ _ hcred).1
        · rfl
  · intro out h
    unfold handle_incoming at h
    dsimp only at h
    split at h
    · exact (handleImage_unconfigured cfg nxO1 nxO2 dlO visO _ urls hcred).2 out h
    · split at h
      · obtain rfl := Option.some.inj h; rfl
      · split at h
        · exact (handleAdd_unconfigured cfg nxO1 nxO2 _ now today wa _ _ hcred).2 out h
        · repeat' split at h
          all_goals obtain rfl := Option.some.inj h
          all_goals rfl

/-- C5 (witness): with unset credentials, `add apple 2` behaves identically
under the always-failing and an always-succeeding nutrition oracle, and its
reply reports that no network call happened. -/
theorem nx_unconfigured_local_only_witness :
    credsTruthy cfgOff = false ∧
    (handle_incoming cfgOff nxNone dlNone visNone seededDB
        "2026-10-12T10:00:00" "2026-10-12" "u" "add apple 2" 0 []
      = handle_incoming cfgOff nxGrapes dlNone visNone seededDB
        "2026-10-12T10:00:00" "2026-10-12" "u" "add apple 2" 0 [] ∧
     ∀ out,
       handle_incoming cfgOff nxNone dlNone visNone seededDB
         "2026-10-12T10:00:00" "2026-10-12" "u" "add apple 2" 0 []
         = some out → out.nxCalled = false) :=
  ⟨by decide, nx_unconfigured_local_only cfgOff nxNone nxGrapes dlNone visNone
    seededDB "2026-10-12T10:00:00" "2026-10-12" "u" "add apple 2" 0 []
    (by decide)⟩

/-- C7: for every inbound message carrying an image attachment, handling
terminates in a reply and writes no log entry — the log table after the
message equals the log table before it, on every image-path outcome. -/
theorem image_path_never_logs (cfg : Config)
    (nxO : String → Option NxResult) (dlO : String → Option String)
    (visO : String → Option (List (String × ℚ))) (db : DB)
    (now today wa body : String) (numMedia : ℕ) (urls : List String)
    (hmedia : 0 < numMedia) (hurls : urls ≠ []) :
    ∃ out,
      handle_incoming cfg nxO dlO visO db now today wa body numMedia urls
        = some out ∧ out.db.logs = db.logs := by
  unfold handle_incoming
  dsimp only
  rw [if_pos ⟨hmedia, hurls⟩]
  obtain ⟨r, c, h⟩ := handleImage_shape cfg nxO dlO visO
    (get_or_create_user db wa).1 urls
  exact ⟨⟨r, (get_or_create_user db wa).1, c⟩, h, gocu_logs db wa⟩

/-- C7 (witness): a one-image message whose download fails, against the
seeded database: a reply is produced and the log table stays empty. -/
theorem image_path_never_logs_witness :
    0 < 1 ∧ (["http://img"] : List String) ≠ [] ∧
    ∃ out,
      handle_incoming cfgOff nxNone dlNone visNone seededDB
        "2026-10-12T10:00:00" "2026-10-12" "u" "" 1 ["http://img"]
        = some out ∧ out.db.logs = seededDB.logs :=
  ⟨by decide, by decide,
   image_path_never_logs cfgOff nxNone dlNone visNone seededDB
     "2026-10-12T10:00:00" "2026-10-12" "u" "" 1 ["http://img"]
     (by decide) (by decide)⟩

/-- C6: when the external lookup succeeds for an add command whose food name
has no local catalog match, a catalog entry is created with unit `"serving"`
and kcal-per-unit `totalKcal / quantity` (falling back to `totalKcal` when
the quantity is zero), and the log entry is written against the new id; and
whenever the insert instead hits the name-uniqueness violation (a
concurrent writer won the race), the existing row's id is re-read and
returned with the state unchanged, so the caller still logs against a valid
entry id. -/
theorem add_nx_success_creates_entry (cfg : Config)
    (nxO : String → Option NxResult) (db : DB) (now today wa : String)
    (uid : ℕ) (parts : List String) (q : ℚ) (r : NxResult)
    (hcred : credsTruthy cfg = true)
    (hlen : 3 ≤ parts.length)
    (hq : parseQty (lastTok parts) = .ok q)
    (hnx : nxO (nxQueryStr q (foodNameOf parts)) = some r)
    (hm : find_food_local db (foodNameOf parts) = []) :
    (∃ reply db',
      handleAdd cfg nxO db now today wa uid parts = some ⟨reply, db', true⟩ ∧
      db'.foodItems = db.foodItems ++
        [⟨db.nextFoodId, foodNameOf parts, "serving",
          if q ≠ 0 then r.kcal / q else r.kcal⟩] ∧
      db'.logs = db.logs ++
        [⟨db.nextLogId, uid, db.nextFoodId, q, r.kcal, now⟩]) ∧
    ∀ db2 f,
      db2.foodItems.find? (fun x => x.name == foodNameOf parts) = some f →
      createOrGetFood db2 (foodNameOf parts) "serving"
        (if q ≠ 0 then r.kcal / q else r.kcal) = (db2, f.id) := by
  constructor
  · unfold handleAdd
    rw [if_neg (by omega), hq]
    dsimp only
    rw [hcred]
    simp only [if_true]
    rw [hnx]
    dsimp only
    rw [hm]
    unfold createOrGetFood
    rw [find_food_local_nil_exact db _ hm]
    dsimp only
    exact ⟨_, _, rfl, by simp [log_food_local], by simp [log_food_local]⟩
  · intro db2 f hf
    unfold createOrGetFood
    rw [hf]

/-- C6 (witness): `add grapes 2` with configured credentials and a
succeeding oracle (52 kcal) against the seeded catalog, which has no
`grapes` row; and the race recovery applied to a state where a concurrent
writer already inserted `grapes` with id 6. -/
theorem add_nx_success_creates_entry_witness :
    credsTruthy cfgOn = true ∧
    3 ≤ (["add", "grapes", "2"] : List String).length ∧
    parseQty (lastTok ["add", "grapes", "2"]) = .ok 2 ∧
    nxGrapes (nxQueryStr 2 (foodNameOf ["add", "grapes", "2"]))
      = some ⟨52, "grapes"⟩ ∧
    find_food_local seededUserDB (foodNameOf ["add", "grapes", "2"]) = [] ∧
    (∃ reply db',
      handleAdd cfgOn nxGrapes seededUserDB "2026-10-12T10:00:00" "2026-10-12"
        "u" 1 ["add", "grapes", "2"] = some ⟨reply, db', true⟩ ∧
      db'.foodItems = seededUserDB.foodItems ++
        [⟨seededUserDB.nextFoodId, foodNameOf ["add", "grapes", "2"], "serving",
          if (2 : ℚ) ≠ 0 then (52 : ℚ) / 2 else 52⟩] ∧
      db'.logs = seededUserDB.logs ++
        [⟨seededUserDB.nextLogId, 1, seededUserDB.nextFoodId, 2, 52,
          "2026-10-12T10:00:00"⟩]) ∧
    createOrGetFood grapesDB (foodNameOf ["add", "grapes", "2"]) "serving"
      (if (2 : ℚ) ≠ 0 then (52 : ℚ) / 2 else 52) = (grapesDB, 6) := by
  have h1 : credsTruthy cfgOn = true := by decide
  have h2 : 3 ≤ (["add", "grapes", "2"] : List String).length := by decide
  have h3 : parseQty (lastTok ["add", "grapes", "2"]) = .ok 2 := by
    simp [parseQty, pyFloat, pyFloatUnsigned, parseMantissa, parseExp,
      applyExp, digitsVal, salvageChars, List.splitOn, lastTok]
  have h4 : nxGrapes (nxQueryStr 2 (foodNameOf ["add", "grapes", "2"]))
      = some ⟨52, "grapes"⟩ := rfl
  have h5 : find_food_local seededUserDB (foodNameOf ["add", "grapes", "2"])
      = [] := by
    simp [find_food_local, seededUserDB, seededDB, init_db, insertFoodIfNew,
      emptyDB, foodNameOf, joinSpace, strContains, strLower, hasSubChars,
      startsWithChars]
  have h6 : grapesDB.foodItems.find?
      (fun x => x.name == foodNameOf ["add", "grapes", "2"])
      = some ⟨6, "grapes", "serving", 26⟩ := by
    simp [grapesDB, seededUserDB, seededDB, init_db, insertFoodIfNew, emptyDB,
      foodNameOf, joinSpace, List.find?]
  have hmain := add_nx_success_creates_entry cfgOn nxGrapes seededUserDB
    "2026-10-12T10:00:00" "2026-10-12" "u" 1 ["add", "grapes", "2"] 2
    ⟨52, "grapes"⟩ h1 h2 h3 h4 h5
  exact ⟨h1, h2, h3, h4, h5, hmain.1,
    hmain.2 grapesDB ⟨6, "grapes", "serving", 26⟩ h6⟩
